import Mathlib

/-!
Shallow embedding of the Library Book Management System
(`src/models.py`, `src/main.py`).

Entities `Book`, `Member`, `BorrowRecord` mirror the SQLAlchemy models;
the CLI workflows of `main.py` (`borrow_book`, `return_book`,
`delete_book`, `delete_member`, `add_book`, `add_member`) are embedded as
functions on an explicit `LibraryState`.  Dates are modelled as integers
(days), Python `int` as `Int`.  The error outcomes the workflows report
(echo-and-abort in the CLI, `ValueError` from validators, the unique
constraint on `members.email`) are embedded as a `LibError` sum type.
-/

/-- Python-style whitespace predicate used by `str.strip()`. -/
def isPySpace (c : Char) : Bool :=
  c = ' ' || c = '\t' || c = '\n' || c = '\r' || c = '\x0b' || c = '\x0c'

/-- Embedding of Python `str.strip()`: drop whitespace at both ends. -/
def pyStrip (s : String) : String :=
  ⟨((s.data.dropWhile isPySpace).reverse.dropWhile isPySpace).reverse⟩

/-- Embedding of Python `str.lower()` (character-wise lowercasing). -/
def pyLower (s : String) : String :=
  ⟨s.data.map Char.toLower⟩

/-- Backtracking matcher for the regex piece `[^@]+` followed by a
continuation `k`: consumes one or more non-`'@'` characters, succeeding if
`k` succeeds on any remaining suffix. -/
def plusNonAt (k : List Char → Bool) : List Char → Bool
  | [] => false
  | c :: cs => c ≠ '@' && (k cs || plusNonAt k cs)

/-- Embedding of `re.match(r"[^@]+@[^@]+\.[^@]+", value)` from
`Member.validate_email` (`src/models.py` line 101): `re.match` anchors at
the start only, so this tests whether some PREFIX of the string belongs to
the regex language. -/
def emailRegexMatch (s : String) : Bool :=
  plusNonAt (fun s1 =>
    match s1 with
    | '@' :: s2 =>
      plusNonAt (fun s3 =>
        match s3 with
        | '.' :: s4 => plusNonAt (fun _ => true) s4
        | _ => false) s2
    | _ => false) s.data

/-- Modelled from the spec: the ANCHORED pattern `^[^@]+@[^@]+\.[^@]+$`
the specification names for email validation — the whole string must be in
the regex language (final `[^@]+` must reach the end of the string). -/
def specAnchoredEmailMatch (s : String) : Bool :=
  plusNonAt (fun s1 =>
    match s1 with
    | '@' :: s2 =>
      plusNonAt (fun s3 =>
        match s3 with
        | '.' :: s4 => plusNonAt (fun s5 => s5.isEmpty) s4
        | _ => false) s2
    | _ => false) s.data

/-- `books` row (`src/models.py` class `Book`): `total_copies` is a Python
int (validated ≥ 1 on write), `available` is the stored Boolean column
with default `True`. -/
structure Book where
  id : Nat
  title : String
  author : String
  total_copies : Int
  available : Bool
  deriving DecidableEq, Repr

/-- `members` row (`src/models.py` class `Member`). -/
structure Member where
  id : Nat
  name : String
  email : String
  join_date : Int
  deriving DecidableEq, Repr

/-- `borrow_records` row (`src/models.py` class `BorrowRecord`):
`return_date` is nullable. -/
structure BorrowRecord where
  id : Nat
  book_id : Nat
  member_id : Nat
  borrow_date : Int
  return_date : Option Int
  deriving DecidableEq, Repr

/-- The database: the three tables plus the autoincrement counters that
assign primary keys. -/
structure LibraryState where
  books : List Book
  members : List Member
  records : List BorrowRecord
  nextBookId : Nat
  nextMemberId : Nat
  nextRecordId : Nat
  deriving DecidableEq, Repr

/-- The error outcomes of the workflows: validator `ValueError`s, the
echo-and-abort paths of the CLI commands (entity not found, no copies
available, already returned, delete blocked / duplicate email). -/
inductive LibError where
  | validationError (msg : String)
  | notFound (what : String)
  | unavailable
  | alreadyReturned
  | conflict
  deriving DecidableEq, Repr

/-- The empty database. -/
def emptyState : LibraryState :=
  { books := [], members := [], records := [],
    nextBookId := 0, nextMemberId := 0, nextRecordId := 0 }

/-- `Book.find_by_id` (`src/models.py`): point lookup by primary key. -/
def findBook (s : LibraryState) (bid : Nat) : Option Book :=
  s.books.find? (fun b => b.id == bid)

/-- `Member.find_by_id` (`src/models.py`). -/
def findMember (s : LibraryState) (mid : Nat) : Option Member :=
  s.members.find? (fun m => m.id == mid)

/-- `BorrowRecord.find_by_id` (`src/models.py`). -/
def findRecord (s : LibraryState) (rid : Nat) : Option BorrowRecord :=
  s.records.find? (fun r => r.id == rid)

/-- The count `session.query(BorrowRecord).filter(book_id == id,
return_date.is_(None)).count()` used by `Book.available_copies` and by the
`delete_book` guard. -/
def activeCount (records : List BorrowRecord) (bid : Nat) : Nat :=
  records.countP (fun r => r.book_id == bid && r.return_date.isNone)

/-- The count `len(member.active_borrows)` used by the `delete_member`
guard (`src/models.py` `Member.active_borrows`). -/
def memberActiveCount (records : List BorrowRecord) (mid : Nat) : Nat :=
  records.countP (fun r => r.member_id == mid && r.return_date.isNone)

/-- `Book.available_copies` (`src/models.py` lines 35-45):
`total_copies - borrowed_count`, computed on read. -/
def availableCopies (s : LibraryState) (b : Book) : Int :=
  b.total_copies - (activeCount s.records b.id : Int)

/-- `Book.validate_not_empty` / `Member.validate_name`: reject when the
stripped value is empty (Python `not value or not value.strip()`), store
the stripped value. -/
def validate_not_empty (msg : String) (value : String) : Except LibError String :=
  if pyStrip value = "" then .error (.validationError msg)
  else .ok (pyStrip value)

/-- `Member.validate_email` (`src/models.py` lines 98-103): reject when the
value is empty or `re.match(r"[^@]+@[^@]+\.[^@]+", value)` fails; store
`value.lower().strip()`. -/
def validate_email (value : String) : Except LibError String :=
  if value = "" || !(emailRegexMatch value) then
    .error (.validationError "Invalid email format")
  else .ok (pyStrip (pyLower value))

/-- `Book.create` as invoked by the `add_book` CLI command: validate title,
author (non-empty, stripped) and `total_copies ≥ 1`
(`Book.validate_total_copies`), then insert with a fresh id; the stored
`available` column takes its default `True`. -/
def newBook (bid : Nat) (t a : String) (copies : Int) : Book :=
  { id := bid, title := t, author := a, total_copies := copies, available := true }

def add_book (title author : String) (copies : Int) (s : LibraryState) :
    Except LibError (Book × LibraryState) :=
  match validate_not_empty "Title cannot be empty" title with
  | .error e => .error e
  | .ok t =>
    match validate_not_empty "Author cannot be empty" author with
    | .error e => .error e
    | .ok a =>
      if copies < 1 then .error (.validationError "Total copies must be at least 1")
      else
        .ok (newBook s.nextBookId t a copies,
             { s with books := s.books ++ [newBook s.nextBookId t a copies],
                      nextBookId := s.nextBookId + 1 })

/-- `Member.create` as invoked by the `add_member` CLI command: validate
name and email, then insert; the `unique=True` constraint on
`members.email` rejects the commit when the (normalized) email is already
stored, surfaced as an exception in `add_member`. -/
def newMember (mid : Nat) (n e : String) (today : Int) : Member :=
  { id := mid, name := n, email := e, join_date := today }

def add_member (name email : String) (today : Int) (s : LibraryState) :
    Except LibError (Member × LibraryState) :=
  match validate_not_empty "Name cannot be empty" name with
  | .error e => .error e
  | .ok n =>
    match validate_email email with
    | .error e => .error e
    | .ok e =>
      if s.members.any (fun m => m.email == e) then .error .conflict
      else
        .ok (newMember s.nextMemberId n e today,
             { s with members := s.members ++ [newMember s.nextMemberId n e today],
                      nextMemberId := s.nextMemberId + 1 })

/-- `delete_book` (`src/main.py` lines 54-83): resolve the book, abort
when it has active (unreturned) borrow records, otherwise delete it; the
`cascade="all, delete-orphan"` relationship removes all of its borrow
records with it. -/
def delete_book (bid : Nat) (s : LibraryState) : Except LibError LibraryState :=
  match findBook s bid with
  | none => .error (.notFound "book")
  | some b =>
    if 0 < activeCount s.records b.id then .error .conflict
    else .ok { s with books := s.books.filter (fun b2 => !(b2.id == b.id)),
                      records := s.records.filter (fun r => !(r.book_id == b.id)) }

/-- `delete_member` (`src/main.py` lines 183-209): resolve the member,
abort when `len(member.active_borrows) > 0`, otherwise delete it together
with all of its borrow records (cascade). -/
def delete_member (mid : Nat) (s : LibraryState) : Except LibError LibraryState :=
  match findMember s mid with
  | none => .error (.notFound "member")
  | some m =>
    if 0 < memberActiveCount s.records m.id then .error .conflict
    else .ok { s with members := s.members.filter (fun m2 => !(m2.id == m.id)),
                      records := s.records.filter (fun r => !(r.member_id == m.id)) }

/-- `BorrowRecord.create` (`src/models.py`): a fresh ACTIVE record with
`borrow_date` defaulted to today and `return_date` null. -/
def newRecord (rid bid mid : Nat) (today : Int) : BorrowRecord :=
  { id := rid, book_id := bid, member_id := mid,
    borrow_date := today, return_date := none }

/-- `borrow_book` (`src/main.py` lines 276-311): resolve the MEMBER first
(lines 282-287), then the book (lines 290-295), then check
`book.available_copies <= 0` (line 298), then create the `BorrowRecord`
(state ACTIVE, `borrow_date = today`) with a fresh id.  Returns the new
record's id with the new state. -/
def borrow_book (today : Int) (mid bid : Nat) (s : LibraryState) :
    Except LibError (Nat × LibraryState) :=
  match findMember s mid with
  | none => .error (.notFound "member")
  | some m =>
    match findBook s bid with
    | none => .error (.notFound "book")
    | some b =>
      if availableCopies s b ≤ 0 then .error .unavailable
      else
        .ok (s.nextRecordId,
             { s with records := s.records ++ [newRecord s.nextRecordId b.id m.id today],
                      nextRecordId := s.nextRecordId + 1 })

/-- The in-place ORM update `record.return_date = date.today()` applied to
the row with primary key `rid`. -/
def retUpdate (today : Int) (rid : Nat) (r : BorrowRecord) : BorrowRecord :=
  if r.id == rid then { r with return_date := some today } else r

/-- `return_book` (`src/main.py` lines 313-341): resolve the record, abort
with the already-returned message when `record.return_date` is set, else
set `return_date = today`; `BorrowRecord.validate_return_date` raises when
the new date is before `borrow_date` (rolled back in the `except` branch). -/
def return_book (today : Int) (rid : Nat) (s : LibraryState) :
    Except LibError LibraryState :=
  match findRecord s rid with
  | none => .error (.notFound "record")
  | some r =>
    if r.return_date.isSome then .error .alreadyReturned
    else if today < r.borrow_date then
      .error (.validationError "Return date cannot be before borrow date")
    else
      .ok { s with records := s.records.map (retUpdate today rid) }

/-- The operations of the CLI, with the interactive inputs as payloads. -/
inductive Op where
  | addBook (title author : String) (copies : Int)
  | addMember (name email : String) (today : Int)
  | deleteBook (bid : Nat)
  | deleteMember (mid : Nat)
  | borrow (today : Int) (mid bid : Nat)
  | ret (today : Int) (rid : Nat)
  deriving DecidableEq, Repr

/-- Run one operation; every failing workflow leaves the store unchanged
(the CLI aborts before any write, or rolls back). -/
def runOp (o : Op) (s : LibraryState) : LibraryState :=
  match o with
  | .addBook t a c => match add_book t a c s with | .ok p => p.2 | .error _ => s
  | .addMember n e d => match add_member n e d s with | .ok p => p.2 | .error _ => s
  | .deleteBook bid => match delete_book bid s with | .ok s2 => s2 | .error _ => s
  | .deleteMember mid => match delete_member mid s with | .ok s2 => s2 | .error _ => s
  | .borrow d mid bid => match borrow_book d mid bid s with | .ok p => p.2 | .error _ => s
  | .ret d rid => match return_book d rid s with | .ok s2 => s2 | .error _ => s

/-- Run a sequence of operations, first to last. -/
def runOps (ops : List Op) (s : LibraryState) : LibraryState :=
  ops.foldl (fun st o => runOp o st) s

/-- Well-formedness of a database state: primary keys are pairwise
distinct within each table and below the autoincrement counters, and
every borrow record references an existing book row. -/
def WF (s : LibraryState) : Prop :=
  s.books.Pairwise (fun a b => a.id ≠ b.id) ∧
  s.members.Pairwise (fun a b => a.id ≠ b.id) ∧
  s.records.Pairwise (fun a b => a.id ≠ b.id) ∧
  (∀ b ∈ s.books, b.id < s.nextBookId) ∧
  (∀ m ∈ s.members, m.id < s.nextMemberId) ∧
  (∀ r ∈ s.records, r.id < s.nextRecordId) ∧
  (∀ r ∈ s.records, ∃ b ∈ s.books, r.book_id = b.id)

/-- The availability invariant: no book ever has more active borrow
records than total copies. -/
def BookInv (s : LibraryState) : Prop :=
  ∀ b ∈ s.books, (activeCount s.records b.id : Int) ≤ b.total_copies

/-- The full state invariant preserved by every workflow operation. -/
def StateInv (s : LibraryState) : Prop := WF s ∧ BookInv s

instance decWF (s : LibraryState) : Decidable (WF s) := by
  unfold WF
  infer_instance

instance decBookInv (s : LibraryState) : Decidable (BookInv s) := by
  unfold BookInv
  infer_instance

instance decStateInv (s : LibraryState) : Decidable (StateInv s) := by
  unfold StateInv
  infer_instance

instance exceptDecEq {ε α : Type} [DecidableEq ε] [DecidableEq α] :
    DecidableEq (Except ε α) := fun x y =>
  match x, y with
  | .error a, .error b =>
    if h : a = b then .isTrue (by rw [h]) else .isFalse (by simp [h])
  | .ok a, .ok b =>
    if h : a = b then .isTrue (by rw [h]) else .isFalse (by simp [h])
  | .error _, .ok _ => .isFalse (by simp)
  | .ok _, .error _ => .isFalse (by simp)

theorem eq_of_pairwise_id {α : Type} (f : α → Nat) {l : List α}
    (hp : l.Pairwise (fun a b => f a ≠ f b)) {a b : α}
    (ha : a ∈ l) (hb : b ∈ l) (h : f a = f b) : a = b := by
  by_contra hne
  exact (hp.forall (fun x y hxy => Ne.symm hxy) ha hb hne) h

theorem activeCount_append (l1 l2 : List BorrowRecord) (bid : Nat) :
    activeCount (l1 ++ l2) bid = activeCount l1 bid + activeCount l2 bid :=
  List.countP_append _ _ _

theorem activeCount_sublist {l1 l2 : List BorrowRecord} (h : l1.Sublist l2)
    (bid : Nat) : activeCount l1 bid ≤ activeCount l2 bid :=
  h.countP_le _

theorem findBook_mem {s : LibraryState} {bid : Nat} {b : Book}
    (h : findBook s bid = some b) : b ∈ s.books ∧ b.id = bid := by
  unfold findBook at h
  refine ⟨List.mem_of_find?_eq_some h, ?_⟩
  have := List.find?_some h
  simpa using this

theorem findMember_mem {s : LibraryState} {mid : Nat} {m : Member}
    (h : findMember s mid = some m) : m ∈ s.members ∧ m.id = mid := by
  unfold findMember at h
  refine ⟨List.mem_of_find?_eq_some h, ?_⟩
  have := List.find?_some h
  simpa using this

theorem findRecord_mem {s : LibraryState} {rid : Nat} {r : BorrowRecord}
    (h : findRecord s rid = some r) : r ∈ s.records ∧ r.id = rid := by
  unfold findRecord at h
  refine ⟨List.mem_of_find?_eq_some h, ?_⟩
  have := List.find?_some h
  simpa using this

theorem activeCount_newRecord_same (rid bid mid : Nat) (d : Int) :
    activeCount [newRecord rid bid mid d] bid = 1 := by
  simp [activeCount, newRecord, List.countP_cons]

theorem activeCount_newRecord_other {bid bid2 : Nat} (rid mid : Nat) (d : Int)
    (h : bid ≠ bid2) : activeCount [newRecord rid bid mid d] bid2 = 0 := by
  simp [activeCount, newRecord, List.countP_cons, h]

theorem borrow_book_ok_inv {d : Int} {mid bid rid : Nat} {s s2 : LibraryState}
    (h : borrow_book d mid bid s = .ok (rid, s2)) (hs : StateInv s) :
    StateInv s2 := by
  unfold borrow_book at h
  split at h
  · exact absurd h (by simp)
  next m hm =>
  split at h
  · exact absurd h (by simp)
  next b hb =>
  split at h
  · exact absurd h (by simp)
  next havail =>
  simp only [Except.ok.injEq, Prod.mk.injEq] at h
  obtain ⟨hrid, hs2⟩ := h
  obtain ⟨⟨hpb, hpm, hpr, hfb, hfm, hfr, href⟩, hinv⟩ := hs
  obtain ⟨hbmem, hbid⟩ := findBook_mem hb
  subst hs2
  refine ⟨⟨hpb, hpm, ?_, hfb, hfm, ?_, ?_⟩, ?_⟩
  · refine List.pairwise_append.2 ⟨hpr, List.pairwise_singleton _ _, ?_⟩
    intro a ha r hr
    simp only [List.mem_singleton] at hr
    subst hr
    exact Nat.ne_of_lt (hfr a ha)
  · intro r hr
    rcases List.mem_append.1 hr with h1 | h1
    · exact Nat.lt_trans (hfr r h1) (Nat.lt_succ_self _)
    · simp only [List.mem_singleton] at h1
      subst h1
      exact Nat.lt_succ_self _
  · intro r hr
    rcases List.mem_append.1 hr with h1 | h1
    · exact href r h1
    · simp only [List.mem_singleton] at h1
      subst h1
      exact ⟨b, hbmem, rfl⟩
  · intro b2 hb2
    simp only [activeCount_append]
    by_cases hc : b.id = b2.id
    · have hbeq : b2 = b := eq_of_pairwise_id Book.id hpb hb2 hbmem hc.symm
      rw [hbeq, activeCount_newRecord_same]
      have h2 : (0 : Int) < availableCopies s b := lt_of_not_ge havail
      unfold availableCopies at h2
      push_cast
      omega
    · rw [activeCount_newRecord_other _ _ _ hc]
      simpa using hinv b2 hb2

theorem retUpdate_id (d : Int) (rid : Nat) (r : BorrowRecord) :
    (retUpdate d rid r).id = r.id := by
  unfold retUpdate
  split <;> rfl

theorem retUpdate_book_id (d : Int) (rid : Nat) (r : BorrowRecord) :
    (retUpdate d rid r).book_id = r.book_id := by
  unfold retUpdate
  split <;> rfl

theorem retUpdate_member_id (d : Int) (rid : Nat) (r : BorrowRecord) :
    (retUpdate d rid r).member_id = r.member_id := by
  unfold retUpdate
  split <;> rfl

theorem activeCount_retUpdate_le (l : List BorrowRecord) (d : Int) (rid bid : Nat) :
    activeCount (l.map (retUpdate d rid)) bid ≤ activeCount l bid := by
  unfold activeCount
  rw [List.countP_map]
  refine List.countP_mono_left ?_
  intro r _ hp
  simp only [Function.comp] at hp
  unfold retUpdate at hp
  split at hp
  · simp at hp
  · exact hp

theorem return_book_ok_inv {d : Int} {rid : Nat} {s s2 : LibraryState}
    (h : return_book d rid s = .ok s2) (hs : StateInv s) : StateInv s2 := by
  unfold return_book at h
  split at h
  · exact absurd h (by simp)
  next r hr =>
  split at h
  · exact absurd h (by simp)
  split at h
  · exact absurd h (by simp)
  simp only [Except.ok.injEq] at h
  obtain ⟨⟨hpb, hpm, hpr, hfb, hfm, hfr, href⟩, hinv⟩ := hs
  subst h
  refine ⟨⟨hpb, hpm, ?_, hfb, hfm, ?_, ?_⟩, ?_⟩
  · refine List.pairwise_map.2 (hpr.imp ?_)
    intro a b hab
    simpa [retUpdate_id] using hab
  · intro r2 hr2
    obtain ⟨r0, hr0, hupd⟩ := List.mem_map.1 hr2
    rw [← hupd, retUpdate_id]
    exact hfr r0 hr0
  · intro r2 hr2
    obtain ⟨r0, hr0, hupd⟩ := List.mem_map.1 hr2
    rw [← hupd, retUpdate_book_id]
    exact href r0 hr0
  · intro b2 hb2
    calc (activeCount (s.records.map (retUpdate d rid)) b2.id : Int)
        ≤ (activeCount s.records b2.id : Int) := by
          exact_mod_cast activeCount_retUpdate_le s.records d rid b2.id
      _ ≤ b2.total_copies := hinv b2 hb2

theorem delete_book_ok_inv {bid : Nat} {s s2 : LibraryState}
    (h : delete_book bid s = .ok s2) (hs : StateInv s) : StateInv s2 := by
  unfold delete_book at h
  split at h
  · exact absurd h (by simp)
  next b hb =>
  split at h
  · exact absurd h (by simp)
  simp only [Except.ok.injEq] at h
  obtain ⟨⟨hpb, hpm, hpr, hfb, hfm, hfr, href⟩, hinv⟩ := hs
  subst h
  refine ⟨⟨hpb.filter _, hpm, hpr.filter _, ?_, hfm, ?_, ?_⟩, ?_⟩
  · intro b2 hb2
    exact hfb b2 (List.mem_of_mem_filter hb2)
  · intro r hr
    exact hfr r (List.mem_of_mem_filter hr)
  · intro r hr
    obtain ⟨hrmem, hrcond⟩ := List.mem_filter.1 hr
    obtain ⟨b2, hb2mem, hb2eq⟩ := href r hrmem
    refine ⟨b2, List.mem_filter.2 ⟨hb2mem, ?_⟩, hb2eq⟩
    simp only [Bool.not_eq_eq_eq_not, Bool.not_true, beq_eq_false_iff_ne] at hrcond ⊢
    rw [← hb2eq]
    exact hrcond
  · intro b2 hb2
    calc (activeCount (s.records.filter (fun r => !(r.book_id == b.id))) b2.id : Int)
        ≤ (activeCount s.records b2.id : Int) := by
          exact_mod_cast activeCount_sublist (List.filter_sublist _) b2.id
      _ ≤ b2.total_copies := hinv b2 (List.mem_of_mem_filter hb2)

theorem delete_member_ok_inv {mid : Nat} {s s2 : LibraryState}
    (h : delete_member mid s = .ok s2) (hs : StateInv s) : StateInv s2 := by
  unfold delete_member at h
  split at h
  · exact absurd h (by simp)
  next m hm =>
  split at h
  · exact absurd h (by simp)
  simp only [Except.ok.injEq] at h
  obtain ⟨⟨hpb, hpm, hpr, hfb, hfm, hfr, href⟩, hinv⟩ := hs
  subst h
  refine ⟨⟨hpb, hpm.filter _, hpr.filter _, hfb, ?_, ?_, ?_⟩, ?_⟩
  · intro m2 hm2
    exact hfm m2 (List.mem_of_mem_filter hm2)
  · intro r hr
    exact hfr r (List.mem_of_mem_filter hr)
  · intro r hr
    exact href r (List.mem_of_mem_filter hr)
  · intro b2 hb2
    calc (activeCount (s.records.filter (fun r => !(r.member_id == m.id))) b2.id : Int)
        ≤ (activeCount s.records b2.id : Int) := by
          exact_mod_cast activeCount_sublist (List.filter_sublist _) b2.id
      _ ≤ b2.total_copies := hinv b2 hb2

theorem add_book_ok_inv {t a : String} {c : Int} {s s2 : LibraryState} {b : Book}
    (h : add_book t a c s = .ok (b, s2)) (hs : StateInv s) : StateInv s2 := by
  unfold add_book at h
  split at h
  · exact absurd h (by simp)
  next t0 ht0 =>
  split at h
  · exact absurd h (by simp)
  next a0 ha0 =>
  split at h
  · exact absurd h (by simp)
  next hc =>
  simp only [Except.ok.injEq, Prod.mk.injEq] at h
  obtain ⟨hb, hs2⟩ := h
  obtain ⟨⟨hpb, hpm, hpr, hfb, hfm, hfr, href⟩, hinv⟩ := hs
  subst hs2
  refine ⟨⟨?_, hpm, hpr, ?_, hfm, hfr, ?_⟩, ?_⟩
  · refine List.pairwise_append.2 ⟨hpb, List.pairwise_singleton _ _, ?_⟩
    intro x hx y hy
    simp only [List.mem_singleton] at hy
    subst hy
    exact Nat.ne_of_lt (hfb x hx)
  · intro b2 hb2
    rcases List.mem_append.1 hb2 with h1 | h1
    · exact Nat.lt_trans (hfb b2 h1) (Nat.lt_succ_self _)
    · simp only [List.mem_singleton] at h1
      subst h1
      exact Nat.lt_succ_self _
  · intro r hr
    obtain ⟨b2, hb2mem, hb2eq⟩ := href r hr
    exact ⟨b2, List.mem_append_left _ hb2mem, hb2eq⟩
  · intro b2 hb2
    rcases List.mem_append.1 hb2 with h1 | h1
    · exact hinv b2 h1
    · simp only [List.mem_singleton] at h1
      subst h1
      have hzero : activeCount s.records (newBook s.nextBookId t0 a0 c).id = 0 := by
        unfold activeCount
        refine List.countP_eq_zero.2 ?_
        intro r hr
        obtain ⟨b3, hb3mem, hb3eq⟩ := href r hr
        have : r.book_id ≠ s.nextBookId := by
          rw [hb3eq]
          exact Nat.ne_of_lt (hfb b3 hb3mem)
        simp [newBook, this]
      rw [hzero]
      simp only [newBook]
      omega

theorem add_member_ok_inv {n e : String} {d : Int} {s s2 : LibraryState} {m : Member}
    (h : add_member n e d s = .ok (m, s2)) (hs : StateInv s) : StateInv s2 := by
  unfold add_member at h
  split at h
  · exact absurd h (by simp)
  next n0 hn0 =>
  split at h
  · exact absurd h (by simp)
  next e0 he0 =>
  split at h
  · exact absurd h (by simp)
  simp only [Except.ok.injEq, Prod.mk.injEq] at h
  obtain ⟨hm, hs2⟩ := h
  obtain ⟨⟨hpb, hpm, hpr, hfb, hfm, hfr, href⟩, hinv⟩ := hs
  subst hs2
  refine ⟨⟨hpb, ?_, hpr, hfb, ?_, hfr, href⟩, hinv⟩
  · refine List.pairwise_append.2 ⟨hpm, List.pairwise_singleton _ _, ?_⟩
    intro x hx y hy
    simp only [List.mem_singleton] at hy
    subst hy
    exact Nat.ne_of_lt (hfm x hx)
  · intro m2 hm2
    rcases List.mem_append.1 hm2 with h1 | h1
    · exact Nat.lt_trans (hfm m2 h1) (Nat.lt_succ_self _)
    · simp only [List.mem_singleton] at h1
      subst h1
      exact Nat.lt_succ_self _

theorem runOp_inv {o : Op} {s : LibraryState} (hs : StateInv s) :
    StateInv (runOp o s) := by
  cases o with
  | addBook t a c =>
    simp only [runOp]
    cases h : add_book t a c s with
    | ok p =>
      obtain ⟨b, s2⟩ := p
      exact add_book_ok_inv h hs
    | error e => exact hs
  | addMember n e d =>
    simp only [runOp]
    cases h : add_member n e d s with
    | ok p =>
      obtain ⟨m, s2⟩ := p
      exact add_member_ok_inv h hs
    | error e2 => exact hs
  | deleteBook bid =>
    simp only [runOp]
    cases h : delete_book bid s with
    | ok s2 => exact delete_book_ok_inv h hs
    | error e => exact hs
  | deleteMember mid =>
    simp only [runOp]
    cases h : delete_member mid s with
    | ok s2 => exact delete_member_ok_inv h hs
    | error e => exact hs
  | borrow d mid bid =>
    simp only [runOp]
    cases h : borrow_book d mid bid s with
    | ok p =>
      obtain ⟨rid, s2⟩ := p
      exact borrow_book_ok_inv h hs
    | error e => exact hs
  | ret d rid =>
    simp only [runOp]
    cases h : return_book d rid s with
    | ok s2 => exact return_book_ok_inv h hs
    | error e => exact hs

theorem runOps_inv {ops : List Op} {s : LibraryState} (hs : StateInv s) :
    StateInv (runOps ops s) := by
  induction ops generalizing s with
  | nil => exact hs
  | cons o rest ih => exact ih (runOp_inv hs)

theorem borrow_book_ok_elim {d : Int} {mid bid rid : Nat} {s s2 : LibraryState}
    (h : borrow_book d mid bid s = .ok (rid, s2)) :
    ∃ m b, findMember s mid = some m ∧ findBook s bid = some b ∧
      ¬(availableCopies s b ≤ 0) ∧ rid = s.nextRecordId ∧
      s2 = { s with records := s.records ++ [newRecord s.nextRecordId b.id m.id d],
                    nextRecordId := s.nextRecordId + 1 } := by
  unfold borrow_book at h
  split at h
  · exact absurd h (by simp)
  next m hm =>
  split at h
  · exact absurd h (by simp)
  next b hb =>
  split at h
  · exact absurd h (by simp)
  next havail =>
  simp only [Except.ok.injEq, Prod.mk.injEq] at h
  exact ⟨m, b, hm, hb, havail, h.1.symm, h.2.symm⟩

theorem return_book_ok_elim {d : Int} {rid : Nat} {s s2 : LibraryState}
    (h : return_book d rid s = .ok s2) :
    ∃ r, findRecord s rid = some r ∧ r.return_date = none ∧ ¬(d < r.borrow_date) ∧
      s2 = { s with records := s.records.map (retUpdate d rid) } := by
  unfold return_book at h
  split at h
  · exact absurd h (by simp)
  next r hr =>
  split at h
  · exact absurd h (by simp)
  next hret =>
  split at h
  · exact absurd h (by simp)
  next hdate =>
  simp only [Except.ok.injEq] at h
  exact ⟨r, hr, Option.not_isSome_iff_eq_none.1 hret, hdate, h.symm⟩

theorem delete_book_ok_elim {bid : Nat} {s s2 : LibraryState}
    (h : delete_book bid s = .ok s2) :
    ∃ b, findBook s bid = some b ∧ activeCount s.records b.id = 0 ∧
      s2 = { s with books := s.books.filter (fun b2 => !(b2.id == b.id)),
                    records := s.records.filter (fun r => !(r.book_id == b.id)) } := by
  unfold delete_book at h
  split at h
  · exact absurd h (by simp)
  next b hb =>
  split at h
  · exact absurd h (by simp)
  next hcnt =>
  simp only [Except.ok.injEq] at h
  exact ⟨b, hb, Nat.eq_zero_of_not_pos hcnt, h.symm⟩

theorem delete_member_ok_elim {mid : Nat} {s s2 : LibraryState}
    (h : delete_member mid s = .ok s2) :
    ∃ m, findMember s mid = some m ∧ memberActiveCount s.records m.id = 0 ∧
      s2 = { s with members := s.members.filter (fun m2 => !(m2.id == m.id)),
                    records := s.records.filter (fun r => !(r.member_id == m.id)) } := by
  unfold delete_member at h
  split at h
  · exact absurd h (by simp)
  next m hm =>
  split at h
  · exact absurd h (by simp)
  next hcnt =>
  simp only [Except.ok.injEq] at h
  exact ⟨m, hm, Nat.eq_zero_of_not_pos hcnt, h.symm⟩

theorem add_book_ok_elim {t a : String} {c : Int} {s s2 : LibraryState} {b : Book}
    (h : add_book t a c s = .ok (b, s2)) :
    ∃ t0 a0, validate_not_empty "Title cannot be empty" t = .ok t0 ∧
      validate_not_empty "Author cannot be empty" a = .ok a0 ∧ ¬(c < 1) ∧
      b = newBook s.nextBookId t0 a0 c ∧
      s2 = { s with books := s.books ++ [newBook s.nextBookId t0 a0 c],
                    nextBookId := s.nextBookId + 1 } := by
  unfold add_book at h
  split at h
  · exact absurd h (by simp)
  next t0 ht0 =>
  split at h
  · exact absurd h (by simp)
  next a0 ha0 =>
  split at h
  · exact absurd h (by simp)
  next hc =>
  simp only [Except.ok.injEq, Prod.mk.injEq] at h
  exact ⟨t0, a0, ht0, ha0, hc, h.1.symm, h.2.symm⟩

theorem add_member_ok_elim {n e : String} {d : Int} {s s2 : LibraryState} {m : Member}
    (h : add_member n e d s = .ok (m, s2)) :
    ∃ n0 e0, validate_not_empty "Name cannot be empty" n = .ok n0 ∧
      validate_email e = .ok e0 ∧
      (s.members.any (fun m2 => m2.email == e0)) = false ∧
      m = newMember s.nextMemberId n0 e0 d ∧
      s2 = { s with members := s.members ++ [newMember s.nextMemberId n0 e0 d],
                    nextMemberId := s.nextMemberId + 1 } := by
  unfold add_member at h
  split at h
  · exact absurd h (by simp)
  next n0 hn0 =>
  split at h
  · exact absurd h (by simp)
  next e0 he0 =>
  split at h
  · exact absurd h (by simp)
  next hdup =>
  simp only [Except.ok.injEq, Prod.mk.injEq] at h
  exact ⟨n0, e0, hn0, he0, Bool.not_eq_true _ ▸ eq_false_of_ne_true hdup, h.1.symm, h.2.symm⟩

/-- The record with primary key `i` is closed with return date `d`, and
`i` is below the autoincrement counter (so no later insert reuses it). -/
def ReturnedAt (s : LibraryState) (i : Nat) (d : Int) : Prop :=
  (∀ r ∈ s.records, r.id = i → r.return_date = some d) ∧ i < s.nextRecordId

theorem runOp_returnedAt {o : Op} {s : LibraryState} {i : Nat} {d : Int}
    (h : ReturnedAt s i d) : ReturnedAt (runOp o s) i d := by
  obtain ⟨hall, hlt⟩ := h
  cases o with
  | addBook t a c =>
    simp only [runOp]
    cases hk : add_book t a c s with
    | error e => exact ⟨hall, hlt⟩
    | ok p =>
      obtain ⟨b, s2⟩ := p
      obtain ⟨t0, a0, _, _, _, _, hs2⟩ := add_book_ok_elim hk
      subst hs2
      exact ⟨hall, hlt⟩
  | addMember n e d2 =>
    simp only [runOp]
    cases hk : add_member n e d2 s with
    | error e2 => exact ⟨hall, hlt⟩
    | ok p =>
      obtain ⟨m, s2⟩ := p
      obtain ⟨n0, e0, _, _, _, _, hs2⟩ := add_member_ok_elim hk
      subst hs2
      exact ⟨hall, hlt⟩
  | deleteBook bid =>
    simp only [runOp]
    cases hk : delete_book bid s with
    | error e => exact ⟨hall, hlt⟩
    | ok s2 =>
      obtain ⟨b, _, _, hs2⟩ := delete_book_ok_elim hk
      subst hs2
      refine ⟨?_, hlt⟩
      intro r hr hid
      exact hall r (List.mem_of_mem_filter hr) hid
  | deleteMember mid =>
    simp only [runOp]
    cases hk : delete_member mid s with
    | error e => exact ⟨hall, hlt⟩
    | ok s2 =>
      obtain ⟨m, _, _, hs2⟩ := delete_member_ok_elim hk
      subst hs2
      refine ⟨?_, hlt⟩
      intro r hr hid
      exact hall r (List.mem_of_mem_filter hr) hid
  | borrow d2 mid bid =>
    simp only [runOp]
    cases hk : borrow_book d2 mid bid s with
    | error e => exact ⟨hall, hlt⟩
    | ok p =>
      obtain ⟨rid, s2⟩ := p
      obtain ⟨m, b, _, _, _, _, hs2⟩ := borrow_book_ok_elim hk
      subst hs2
      refine ⟨?_, Nat.lt_trans hlt (Nat.lt_succ_self _)⟩
      intro r hr hid
      rcases List.mem_append.1 hr with h1 | h1
      · exact hall r h1 hid
      · simp only [List.mem_singleton] at h1
        subst h1
        exact absurd hid.symm (Nat.ne_of_lt hlt)
  | ret d2 rid =>
    simp only [runOp]
    cases hk : return_book d2 rid s with
    | error e => exact ⟨hall, hlt⟩
    | ok s2 =>
      obtain ⟨r0, hr0, hnone, _, hs2⟩ := return_book_ok_elim hk
      subst hs2
      refine ⟨?_, hlt⟩
      intro r2 hr2 hid
      obtain ⟨r, hrmem, hupd⟩ := List.mem_map.1 hr2
      by_cases hrid : rid = i
      · exfalso
        obtain ⟨hr0mem, hr0id⟩ := findRecord_mem hr0
        have := hall r0 hr0mem (hr0id.trans hrid)
        rw [hnone] at this
        exact Option.noConfusion this
      · have hne : (r.id == rid) = false := by
          have hri : r.id = i := by rw [← hupd, retUpdate_id] at hid; exact hid
          rw [hri]
          simp only [beq_eq_false_iff_ne]
          exact fun hc => hrid hc.symm
        rw [← hupd]
        unfold retUpdate
        rw [hne]
        simp only [Bool.false_eq_true, if_false]
        refine hall r hrmem ?_
        rw [← hupd, retUpdate_id] at hid
        exact hid

theorem runOps_returnedAt {ops : List Op} {s : LibraryState} {i : Nat} {d : Int}
    (h : ReturnedAt s i d) : ReturnedAt (runOps ops s) i d := by
  induction ops generalizing s with
  | nil => exact h
  | cons o rest ih => exact ih (runOp_returnedAt h)

/-! Concrete sample data used by the witnesses. -/

def sampleBook : Book :=
  { id := 0, title := "1984", author := "Orwell", total_copies := 1, available := true }

def sampleMember : Member :=
  { id := 0, name := "Alice", email := "alice@example.com", join_date := 0 }

def sampleState : LibraryState :=
  { books := [sampleBook], members := [sampleMember], records := [],
    nextBookId := 1, nextMemberId := 1, nextRecordId := 0 }

def sampleActive : BorrowRecord :=
  { id := 0, book_id := 0, member_id := 0, borrow_date := 0, return_date := none }

def sampleReturned : BorrowRecord :=
  { id := 0, book_id := 0, member_id := 0, borrow_date := 0, return_date := some 3 }

def sampleStateBorrowed : LibraryState :=
  { sampleState with records := [sampleActive], nextRecordId := 1 }

def sampleStateReturned : LibraryState :=
  { sampleState with records := [sampleReturned], nextRecordId := 1 }

/-- C2: borrowing a book whose `available_copies` is 0 fails with the
unavailable error and creates no `BorrowRecord`: the whole store, in
particular the set of borrow records, is unchanged. -/
theorem borrow_unavailable_rejects (s : LibraryState) (mid bid : Nat)
    (m : Member) (b : Book) (d : Int) (hm : findMember s mid = some m)
    (hb : findBook s bid = some b) (h0 : availableCopies s b = 0) :
    borrow_book d mid bid s = .error .unavailable ∧
      runOp (Op.borrow d mid bid) s = s := by
  have hmain : borrow_book d mid bid s = .error .unavailable := by
    unfold borrow_book
    simp only [hm, hb]
    rw [if_pos (le_of_eq h0)]
  refine ⟨hmain, ?_⟩
  simp only [runOp, hmain]

/-- C2 witness: with the single copy out on an active record,
`available_copies` is 0 and the borrow attempt is rejected. -/
theorem borrow_unavailable_rejects_witness :
    borrow_book 1 0 0 sampleStateBorrowed = .error .unavailable ∧
      runOp (Op.borrow 1 0 0) sampleStateBorrowed = sampleStateBorrowed :=
  borrow_unavailable_rejects sampleStateBorrowed 0 0 sampleMember sampleBook 1
    (by decide) (by decide) (by decide)

/-- C3: returning a record whose `return_date` is already set fails with
the already-returned error and leaves the store — in particular that
`return_date` — unchanged (idempotent-reject, not a no-op success). -/
theorem return_already_returned_rejects (s : LibraryState) (rid : Nat)
    (r : BorrowRecord) (d0 d : Int) (hr : findRecord s rid = some r)
    (hd : r.return_date = some d0) :
    return_book d rid s = .error .alreadyReturned ∧
      runOp (Op.ret d rid) s = s := by
  have hmain : return_book d rid s = .error .alreadyReturned := by
    unfold return_book
    simp only [hr, hd]
    rfl
  refine ⟨hmain, ?_⟩
  simp only [runOp, hmain]

/-- C3 witness: re-returning the already-returned sample record is
rejected and the state is unchanged. -/
theorem return_already_returned_rejects_witness :
    return_book 5 0 sampleStateReturned = .error .alreadyReturned ∧
      runOp (Op.ret 5 0) sampleStateReturned = sampleStateReturned :=
  return_already_returned_rejects sampleStateReturned 0 sampleReturned 3 5
    (by decide) (by decide)

/-- C7: creating a member whose (normalized) email equals the email of an
already-stored member fails with the conflict error and stores no
duplicate row: the member table is unchanged. -/
theorem member_duplicate_email_conflict (s : LibraryState) (name email : String)
    (d : Int) (m : Member) (hname : ¬(pyStrip name = ""))
    (hvalid : emailRegexMatch email = true) (hmem : m ∈ s.members)
    (hdup : m.email = pyStrip (pyLower email)) :
    add_member name email d s = .error .conflict ∧
      runOp (Op.addMember name email d) s = s := by
  have hnonempty : ¬(email = "") := by
    intro he
    rw [he] at hvalid
    exact absurd hvalid (by decide)
  have hv1 : validate_not_empty "Name cannot be empty" name = .ok (pyStrip name) := by
    unfold validate_not_empty
    rw [if_neg hname]
  have hv2 : validate_email email = .ok (pyStrip (pyLower email)) := by
    unfold validate_email
    simp [hnonempty, hvalid]
  have hany : s.members.any (fun m2 => m2.email == pyStrip (pyLower email)) = true :=
    List.any_eq_true.2 ⟨m, hmem, by simp [hdup]⟩
  have hmain : add_member name email d s = .error .conflict := by
    unfold add_member
    simp only [hv1, hv2, hany]
    rfl
  refine ⟨hmain, ?_⟩
  simp only [runOp, hmain]

/-- C7 witness: re-registering Alice's email with different case and
surrounding whitespace is rejected with a conflict. -/
theorem member_duplicate_email_conflict_witness :
    add_member "Bob" " ALICE@example.com " 1 sampleState = .error .conflict ∧
      runOp (Op.addMember "Bob" " ALICE@example.com " 1) sampleState = sampleState :=
  member_duplicate_email_conflict sampleState "Bob" " ALICE@example.com " 1
    sampleMember (by decide) (by decide) (by decide) (by decide)

/-- C8 counterexample: on the empty store (both ids absent) the borrow
workflow reports the MEMBER as missing, not the book as the claim states:
the code resolves the member first (`src/main.py` lines 282-287). -/
theorem borrow_order_claim_false :
    borrow_book 0 1 1 emptyState = .error (.notFound "member") ∧
    ¬(borrow_book 0 1 1 emptyState = .error (.notFound "book")) := by
  constructor
  · rfl
  · intro h
    have h2 : LibError.notFound "member" = LibError.notFound "book" :=
      Except.error.inj h
    exact absurd (LibError.notFound.inj h2) (by decide)

/-- C8 (amended): the borrow workflow first resolves the Member, failing
with the member-not-found error if absent, and only then resolves the
Book, failing with the book-not-found error if absent; when both ids are
absent the failure is the member-not-found error. -/
theorem borrow_resolution_order (d : Int) (mid bid : Nat) (s : LibraryState) :
    (findMember s mid = none → borrow_book d mid bid s = .error (.notFound "member")) ∧
    (∀ m, findMember s mid = some m → findBook s bid = none →
      borrow_book d mid bid s = .error (.notFound "book")) := by
  constructor
  · intro h
    unfold borrow_book
    simp only [h]
  · intro m hm hb
    unfold borrow_book
    simp only [hm, hb]

/-- C8 witness: member missing on the empty store; book missing on a
store that has the member only. -/
theorem borrow_resolution_order_witness :
    borrow_book 0 1 1 emptyState = .error (.notFound "member") ∧
    borrow_book 0 0 5 sampleState = .error (.notFound "book") :=
  ⟨(borrow_resolution_order 0 1 1 emptyState).1 (by decide),
   (borrow_resolution_order 0 0 5 sampleState).2 sampleMember (by decide) (by decide)⟩

/-- C9: once a record's `return_date` is set, no subsequent sequence of
workflow operations changes it or resets it to null — any record with
that primary key still present after the operations carries the same
return date (the RETURNED state is terminal). -/
theorem returned_state_terminal (ops : List Op) (s : LibraryState)
    (r : BorrowRecord) (i : Nat) (d : Int) (hinv : StateInv s)
    (hr : r ∈ s.records) (hid : r.id = i) (hd : r.return_date = some d) :
    ∀ r2 ∈ (runOps ops s).records, r2.id = i → r2.return_date = some d := by
  obtain ⟨⟨hpb, hpm, hpr, hfb, hfm, hfr, href⟩, _⟩ := hinv
  have hstart : ReturnedAt s i d := by
    constructor
    · intro r2 hr2 hid2
      have heq : r2 = r :=
        eq_of_pairwise_id BorrowRecord.id hpr hr2 hr (hid2.trans hid.symm)
      rw [heq, hd]
    · rw [← hid]
      exact hfr r hr
  exact (runOps_returnedAt hstart).1

/-- C9 witness: after attempting a second return of the sample record,
its return date is still the original one. -/
theorem returned_state_terminal_witness :
    sampleReturned.return_date = some 3 :=
  returned_state_terminal [Op.ret 9 0] sampleStateReturned sampleReturned 0 3
    (by decide) (by decide) rfl rfl sampleReturned (by decide) rfl

/-- C1: starting from a freshly created book (any sequence of operations
may follow, in particular any mix of borrows and returns), every book in
the store satisfies `0 ≤ available_copies ≤ total_copies`. -/
theorem availability_bounds (title author : String) (c : Int) (ops : List Op)
    (s0 : LibraryState) (bk : Book)
    (h0 : ∃ b0, add_book title author c emptyState = .ok (b0, s0))
    (hb : bk ∈ (runOps ops s0).books) :
    0 ≤ availableCopies (runOps ops s0) bk ∧
      availableCopies (runOps ops s0) bk ≤ bk.total_copies := by
  obtain ⟨b0, hadd⟩ := h0
  have hinv0 : StateInv s0 := add_book_ok_inv hadd (by decide)
  have hinvN : StateInv (runOps ops s0) := runOps_inv hinv0
  have hcount := hinvN.2 bk hb
  have hnn : (0 : Int) ≤ (activeCount (runOps ops s0).records bk.id : Int) :=
    Int.natCast_nonneg _
  unfold availableCopies
  omega

/-- C1 witness: the fresh one-copy book after the empty operation
sequence has `available_copies` between 0 and `total_copies`. -/
theorem availability_bounds_witness :
    0 ≤ availableCopies (runOps [] (runOp (Op.addBook "t" "a" 1) emptyState))
        (newBook 0 "t" "a" 1) ∧
      availableCopies (runOps [] (runOp (Op.addBook "t" "a" 1) emptyState))
        (newBook 0 "t" "a" 1) ≤ (newBook 0 "t" "a" 1).total_copies :=
  availability_bounds "t" "a" 1 [] (runOp (Op.addBook "t" "a" 1) emptyState)
    (newBook 0 "t" "a" 1) ⟨newBook 0 "t" "a" 1, by decide⟩ (by decide)

/-- C4: deleting a book or a member with at least one active (unreturned)
borrow record fails with the conflict error and changes nothing; deleting
one with zero active records succeeds, removes the entity, and removes
all of its (historical) borrow records by cascade. -/
theorem delete_guard_and_cascade (s : LibraryState) (bid mid : Nat)
    (b : Book) (m : Member) (hb : findBook s bid = some b)
    (hm : findMember s mid = some m) :
    ((0 < activeCount s.records b.id →
        delete_book bid s = .error .conflict ∧ runOp (Op.deleteBook bid) s = s) ∧
     (activeCount s.records b.id = 0 →
        ∃ s2, delete_book bid s = .ok s2 ∧
          (∀ b2, b2 ∈ s2.books ↔ b2 ∈ s.books ∧ b2.id ≠ b.id) ∧
          (∀ r, r ∈ s2.records ↔ r ∈ s.records ∧ r.book_id ≠ b.id) ∧
          s2.members = s.members)) ∧
    ((0 < memberActiveCount s.records m.id →
        delete_member mid s = .error .conflict ∧ runOp (Op.deleteMember mid) s = s) ∧
     (memberActiveCount s.records m.id = 0 →
        ∃ s2, delete_member mid s = .ok s2 ∧
          (∀ m2, m2 ∈ s2.members ↔ m2 ∈ s.members ∧ m2.id ≠ m.id) ∧
          (∀ r, r ∈ s2.records ↔ r ∈ s.records ∧ r.member_id ≠ m.id) ∧
          s2.books = s.books)) := by
  refine ⟨⟨?_, ?_⟩, ?_, ?_⟩
  · intro hpos
    have hmain : delete_book bid s = .error .conflict := by
      unfold delete_book
      simp only [hb]
      rw [if_pos hpos]
    exact ⟨hmain, by simp only [runOp, hmain]⟩
  · intro hzero
    have hok : delete_book bid s =
        .ok { s with books := s.books.filter (fun b2 => !(b2.id == b.id)),
                     records := s.records.filter (fun r => !(r.book_id == b.id)) } := by
      unfold delete_book
      simp only [hb]
      rw [if_neg (by omega)]
    refine ⟨_, hok, ?_, ?_, rfl⟩
    · intro b2
      simp [List.mem_filter]
    · intro r
      simp [List.mem_filter]
  · intro hpos
    have hmain : delete_member mid s = .error .conflict := by
      unfold delete_member
      simp only [hm]
      rw [if_pos hpos]
    exact ⟨hmain, by simp only [runOp, hmain]⟩
  · intro hzero
    have hok : delete_member mid s =
        .ok { s with members := s.members.filter (fun m2 => !(m2.id == m.id)),
                     records := s.records.filter (fun r => !(r.member_id == m.id)) } := by
      unfold delete_member
      simp only [hm]
      rw [if_neg (by omega)]
    refine ⟨_, hok, ?_, ?_, rfl⟩
    · intro m2
      simp [List.mem_filter]
    · intro r
      simp [List.mem_filter]

/-- C4 witness: on the sample store (one returned record) deleting the
member succeeds and cascades away its historical record; instantiates the
guard theorem at the sample book and member. -/
theorem delete_guard_and_cascade_witness :
    ((0 < activeCount sampleStateReturned.records sampleBook.id →
        delete_book 0 sampleStateReturned = .error .conflict ∧
          runOp (Op.deleteBook 0) sampleStateReturned = sampleStateReturned) ∧
     (activeCount sampleStateReturned.records sampleBook.id = 0 →
        ∃ s2, delete_book 0 sampleStateReturned = .ok s2 ∧
          (∀ b2, b2 ∈ s2.books ↔ b2 ∈ sampleStateReturned.books ∧ b2.id ≠ sampleBook.id) ∧
          (∀ r, r ∈ s2.records ↔ r ∈ sampleStateReturned.records ∧ r.book_id ≠ sampleBook.id) ∧
          s2.members = sampleStateReturned.members)) ∧
    ((0 < memberActiveCount sampleStateReturned.records sampleMember.id →
        delete_member 0 sampleStateReturned = .error .conflict ∧
          runOp (Op.deleteMember 0) sampleStateReturned = sampleStateReturned) ∧
     (memberActiveCount sampleStateReturned.records sampleMember.id = 0 →
        ∃ s2, delete_member 0 sampleStateReturned = .ok s2 ∧
          (∀ m2, m2 ∈ s2.members ↔ m2 ∈ sampleStateReturned.members ∧ m2.id ≠ sampleMember.id) ∧
          (∀ r, r ∈ s2.records ↔ r ∈ sampleStateReturned.records ∧ r.member_id ≠ sampleMember.id) ∧
          s2.books = sampleStateReturned.books)) :=
  delete_guard_and_cascade sampleStateReturned 0 0 sampleBook sampleMember
    (by decide) (by decide)

/-- The state produced by a successful borrow of book `b` by member `m`. -/
def afterBorrow (s : LibraryState) (b : Book) (m : Member) (t1 : Int) : LibraryState :=
  { s with records := s.records ++ [newRecord s.nextRecordId b.id m.id t1],
           nextRecordId := s.nextRecordId + 1 }

/-- The state produced by a successful return of record `rid`. -/
def afterReturn (s1 : LibraryState) (t2 : Int) (rid : Nat) : LibraryState :=
  { s1 with records := s1.records.map (retUpdate t2 rid) }

/-- C5: when a copy is available, borrowing and then returning the record
id the borrow produced restores `available_copies` to its pre-borrow
value. -/
theorem borrow_return_roundtrip (s : LibraryState) (mid bid : Nat) (m : Member)
    (b : Book) (t1 t2 : Int) (hinv : StateInv s) (hm : findMember s mid = some m)
    (hb : findBook s bid = some b) (havail : 1 ≤ availableCopies s b)
    (ht : t1 ≤ t2) :
    ∃ s1 s2, borrow_book t1 mid bid s = .ok (s.nextRecordId, s1) ∧
      return_book t2 s.nextRecordId s1 = .ok s2 ∧
      availableCopies s2 b = availableCopies s b := by
  obtain ⟨⟨hpb, hpm, hpr, hfb, hfm, hfr, href⟩, hbi⟩ := hinv
  have hnot : ¬(availableCopies s b ≤ 0) := by omega
  refine ⟨afterBorrow s b m t1, afterReturn (afterBorrow s b m t1) t2 s.nextRecordId,
    ?_, ?_, ?_⟩
  · unfold borrow_book
    simp only [hm, hb]
    rw [if_neg hnot]
    rfl
  · have hfindnone : s.records.find? (fun r => r.id == s.nextRecordId) = none := by
      rw [List.find?_eq_none]
      intro r hr
      simp only [beq_iff_eq]
      exact Nat.ne_of_lt (hfr r hr)
    have hfind : (s.records ++
        [newRecord s.nextRecordId b.id m.id t1]).find?
          (fun r => r.id == s.nextRecordId) =
        some (newRecord s.nextRecordId b.id m.id t1) := by
      rw [List.find?_append, hfindnone, Option.none_or]
      simp [newRecord]
    unfold return_book findRecord afterReturn afterBorrow
    simp only [hfind]
    rw [if_neg (by simp [newRecord])]
    rw [if_neg (by simp only [newRecord]; omega)]
  · have hmapeq : s.records.map (retUpdate t2 s.nextRecordId) = s.records := by
      refine (List.map_congr_left ?_).trans (List.map_id s.records)
      intro r hr
      unfold retUpdate
      rw [if_neg ?_]
      · rfl
      · simp only [beq_iff_eq]
        exact Nat.ne_of_lt (hfr r hr)
    have hupd : retUpdate t2 s.nextRecordId (newRecord s.nextRecordId b.id m.id t1) =
        { newRecord s.nextRecordId b.id m.id t1 with return_date := some t2 } := by
      unfold retUpdate
      rw [if_pos (by simp [newRecord])]
    unfold availableCopies afterReturn afterBorrow
    simp only [List.map_append]
    rw [hmapeq]
    congr 2
    simp only [List.map_cons, List.map_nil, hupd]
    rw [activeCount_append]
    have hz : activeCount [{ newRecord s.nextRecordId b.id m.id t1 with
        return_date := some t2 }] b.id = 0 := by
      simp [activeCount, List.countP_cons]
    rw [hz]
    exact Nat.add_zero _

/-- C5 witness: borrow then return on the sample store restores the
sample book's availability. -/
theorem borrow_return_roundtrip_witness :
    ∃ s1 s2, borrow_book 0 0 0 sampleState = .ok (sampleState.nextRecordId, s1) ∧
      return_book 0 sampleState.nextRecordId s1 = .ok s2 ∧
      availableCopies s2 sampleBook = availableCopies sampleState sampleBook :=
  borrow_return_roundtrip sampleState 0 0 sampleMember sampleBook 0 0
    (by decide) (by decide) (by decide) (by decide) (by decide)

/-- C6 counterexample: at the input `"a@b.c@d"` the email setter SUCCEEDS
(Python `re.match` only anchors at the start, and a prefix matches), yet
the string does not match the anchored pattern `^[^@]+@[^@]+\.[^@]+$`; so
"fails exactly when the anchored pattern does not match" is false here. -/
theorem email_anchored_claim_false :
    ¬(validate_email "a@b.c@d" = .error (.validationError "Invalid email format") ↔
      specAnchoredEmailMatch "a@b.c@d" = false) := by
  decide

/-- C6 (amended): setting a member's email to `v` fails with the
validation error exactly when NO PREFIX of `v` matches
`[^@]+@[^@]+\.[^@]+` (the semantics of the unanchored `re.match`); on
success the stored value is `v` lower-cased then stripped of surrounding
whitespace. -/
theorem email_validation_prefix_semantics (v : String) :
    (validate_email v = .error (.validationError "Invalid email format") ↔
      emailRegexMatch v = false) ∧
    (emailRegexMatch v = true → validate_email v = .ok (pyStrip (pyLower v))) := by
  cases he : emailRegexMatch v with
  | false =>
    refine ⟨⟨fun _ => rfl, fun _ => ?_⟩, fun h => Bool.noConfusion h⟩
    unfold validate_email
    rw [he]
    simp
  | true =>
    have hne : ¬(v = "") := by
      intro h
      rw [h] at he
      exact absurd he (by decide)
    have hok : validate_email v = .ok (pyStrip (pyLower v)) := by
      unfold validate_email
      rw [he]
      simp [hne]
    refine ⟨⟨fun h => ?_, fun h => Bool.noConfusion h⟩, fun _ => hok⟩
    rw [hok] at h
    exact absurd h (by simp)

/-- C6 witness: a mixed-case email with surrounding whitespace passes
(its prefix matches) and is stored lower-cased and stripped. -/
theorem email_validation_prefix_semantics_witness :
    validate_email " A@B.c " = .ok (pyStrip (pyLower " A@B.c ")) :=
  (email_validation_prefix_semantics " A@B.c ").2 (by decide)

/-- Overwrite the stored `available` flag of the book with id `i` (no
workflow ever performs this write; it is used to state that no workflow
decision reads the flag). -/
def setFlag (i : Nat) (v : Bool) (b : Book) : Book :=
  if b.id == i then { b with available := v } else b

/-- `setFlag` applied to every book row of the store. -/
def setAvail (s : LibraryState) (i : Nat) (v : Bool) : LibraryState :=
  { s with books := s.books.map (setFlag i v) }

theorem setFlag_id (i : Nat) (v : Bool) (b : Book) : (setFlag i v b).id = b.id := by
  unfold setFlag
  split <;> rfl

theorem setFlag_total (i : Nat) (v : Bool) (b : Book) :
    (setFlag i v b).total_copies = b.total_copies := by
  unfold setFlag
  split <;> rfl

theorem findBook_setAvail (s : LibraryState) (i bid : Nat) (v : Bool) :
    findBook (setAvail s i v) bid = (findBook s bid).map (setFlag i v) := by
  unfold findBook setAvail
  simp only [List.find?_map]
  have hp : ((fun b : Book => b.id == bid) ∘ setFlag i v) =
      (fun b : Book => b.id == bid) := by
    funext b
    simp [Function.comp, setFlag_id]
  rw [hp]

theorem availableCopies_setAvail (s : LibraryState) (i : Nat) (v : Bool) (b : Book) :
    availableCopies (setAvail s i v) (setFlag i v b) = availableCopies s b := by
  unfold availableCopies setAvail
  rw [setFlag_total, setFlag_id]

theorem borrow_book_setAvail (d : Int) (mid bid i : Nat) (v : Bool) (s : LibraryState) :
    borrow_book d mid bid (setAvail s i v) =
      (borrow_book d mid bid s).map (fun p => (p.1, setAvail p.2 i v)) := by
  unfold borrow_book
  have hmm : findMember (setAvail s i v) mid = findMember s mid := rfl
  rw [hmm, findBook_setAvail]
  cases hm : findMember s mid with
  | none => rfl
  | some m =>
    cases hb : findBook s bid with
    | none => rfl
    | some b =>
      simp only [Option.map_some']
      rw [availableCopies_setAvail]
      by_cases hc : availableCopies s b ≤ 0
      · rw [if_pos hc, if_pos hc]
        rfl
      · rw [if_neg hc, if_neg hc]
        simp only [Except.map]
        have hrid : (setAvail s i v).nextRecordId = s.nextRecordId := rfl
        have hrec : (setAvail s i v).records = s.records := rfl
        rw [setFlag_id]
        rfl

/-- C10: the stored boolean column `available` (default `True`) is dead
state: borrow and return never write any book row (the book table is
unchanged, flag included); book creation stores the default `True`; and
the borrow decision is invariant under arbitrarily overwriting the flag —
it depends only on `total_copies` and the active-record count. -/
theorem available_flag_unused (d t2 : Int) (mid bid rid i : Nat) (v : Bool)
    (title author : String) (c : Int) (s : LibraryState) :
    (runOp (Op.borrow d mid bid) s).books = s.books ∧
    (runOp (Op.ret t2 rid) s).books = s.books ∧
    (add_book title author c s).map (fun p => p.1.available) =
      (add_book title author c s).map (fun _ => true) ∧
    borrow_book d mid bid (setAvail s i v) =
      (borrow_book d mid bid s).map (fun p => (p.1, setAvail p.2 i v)) := by
  refine ⟨?_, ?_, ?_, borrow_book_setAvail d mid bid i v s⟩
  · simp only [runOp]
    cases hk : borrow_book d mid bid s with
    | error e => rfl
    | ok p =>
      obtain ⟨rid2, s2⟩ := p
      obtain ⟨m, b, _, _, _, _, hs2⟩ := borrow_book_ok_elim hk
      rw [hs2]
  · simp only [runOp]
    cases hk : return_book t2 rid s with
    | error e => rfl
    | ok s2 =>
      obtain ⟨r, _, _, _, hs2⟩ := return_book_ok_elim hk
      rw [hs2]
  · cases hk : add_book title author c s with
    | error e => rfl
    | ok p =>
      obtain ⟨b, s2⟩ := p
      obtain ⟨t0, a0, _, _, _, hbk, _⟩ := add_book_ok_elim hk
      simp only [Except.map]
      rw [hbk]
      rfl
